import Mathlib

/-!
Verification of the sqliter backend (a web-based SQLite browser).

The definitions below are a shallow embedding of the Go source under
`internal/db/sqlite.go` and `internal/api/handlers.go`.  Engine behaviour
that the repository delegates to SQLite (pragma introspection, evaluation
of raw WHERE fragments, ORDER BY, rows-affected counting) is modelled
explicitly; where a definition models engine behaviour rather than code of
the repository, its doc comment says so.
-/

set_option autoImplicit false

namespace Sqliter

/-! ## Go string primitives

Go strings are modelled as Lean `String`s (lists of characters).  The
functions below model the `strings` package functions the source uses:
`strings.HasPrefix`, `strings.Contains`, `strings.Split`.  They are written
over `List Char` so that their behaviour can be reasoned about by
induction.
-/

/-- The test `hasPref sep l` is true when `sep` is a prefix of `l`
(models `strings.HasPrefix` at the character-list level). -/
def hasPref : List Char → List Char → Bool
  | [], _ => true
  | _ :: _, [] => false
  | a :: as, b :: bs => a == b && hasPref as bs

/-- The test `containsSub sep l` is true when `sep` occurs as a contiguous substring
of `l` (models `strings.Contains` at the character-list level;
the empty substring occurs in every string, as in Go). -/
def containsSub (sep : List Char) : List Char → Bool
  | [] => sep.isEmpty
  | a :: rest => hasPref sep (a :: rest) || containsSub sep rest

/-- Core of `strings.Split` for a non-empty separator `c0 :: sep`:
splits around each leftmost non-overlapping occurrence, as Go does.  The
`skip` counter consumes the characters of a just-matched separator, which
keeps the recursion structural. -/
def splitGo1 (c0 : Char) (sep : List Char) : List Char → Nat → List (List Char)
  | [], _ => [[]]
  | _ :: rest, skip + 1 => splitGo1 c0 sep rest skip
  | a :: rest, 0 =>
    if hasPref (c0 :: sep) (a :: rest) then
      [] :: splitGo1 c0 sep rest sep.length
    else
      match splitGo1 c0 sep rest 0 with
      | [] => [[a]]
      | h :: t => (a :: h) :: t

/-- Models Go `strings.Split s sep` for the non-empty separators used in
this code base (for an empty separator Go splits between every character;
that case is unused here and modelled as the identity split). -/
def goSplit (s sep : String) : List String :=
  match sep.data with
  | [] => [s]
  | c0 :: cs => (splitGo1 c0 cs s.data 0).map String.mk

/-- Models Go `strings.Contains`. -/
def goContains (s sub : String) : Bool :=
  containsSub sub.data s.data

/-- Models Go `strings.HasPrefix`. -/
def goHasPrefixStr (p s : String) : Bool :=
  hasPref p.data s.data

/-- The whitespace characters Go `strings.TrimSpace` strips (the ASCII
part of `unicode.IsSpace`, which covers every input this development
evaluates). -/
def isSpaceGo (c : Char) : Bool :=
  c == ' ' || c == '\t' || c == '\n' || c == '\x0b' || c == '\x0c' || c == '\r'

/-- Models Go `strings.TrimSpace`: surrounding whitespace removed. -/
def goTrim (s : String) : String :=
  String.mk (((s.data.dropWhile isSpaceGo).reverse.dropWhile isSpaceGo).reverse)

/-- ASCII upper-casing of one character (Go `strings.ToUpper` on the ASCII
range the SELECT-prefix check concerns). -/
def goToUpperChar (c : Char) : Char :=
  if 97 ≤ c.toNat ∧ c.toNat ≤ 122 then Char.ofNat (c.toNat - 32) else c

/-- Models Go `strings.ToUpper` (ASCII range). -/
def goToUpper (s : String) : String :=
  String.mk (s.data.map goToUpperChar)

/-- A single-quote character, used to build the user-facing messages of the
source verbatim. -/
def sq : String := String.singleton (Char.ofNat 39)

/-- Results of fallible operations are compared concretely in witnesses,
so equality of `Except` results is made decidable. -/
instance {ε α : Type} [DecidableEq ε] [DecidableEq α] : DecidableEq (Except ε α) :=
  fun x y =>
    match x, y with
    | Except.error a, Except.error b =>
      if h : a = b then Decidable.isTrue (by rw [h])
      else Decidable.isFalse (by intro hc; injection hc; exact h (by assumption))
    | Except.ok a, Except.ok b =>
      if h : a = b then Decidable.isTrue (by rw [h])
      else Decidable.isFalse (by intro hc; injection hc; exact h (by assumption))
    | Except.error _, Except.ok _ => Decidable.isFalse (by intro hc; injection hc)
    | Except.ok _, Except.error _ => Decidable.isFalse (by intro hc; injection hc)

/-! ## SQL values and rows -/

/-- A dynamically typed SQLite value, as scanned through `database/sql`
into an `interface\x7b\x7d`: NULL, integer, real, text, or a byte slice
(blobs). -/
inductive SQLValue where
  | null
  | intV (i : Int)
  | realV (r : Rat)
  | textV (s : String)
  | blobV (bs : List Nat)
deriving DecidableEq

/-- A row, as the Go code builds it: a mapping from column name to value
(`models.Row`, a `map[string]interface\x7b\x7d`), modelled as an
association list. -/
abbrev Row := List (String × SQLValue)

/-- A `map[string]interface\x7b\x7d` argument (the `data` / `where` maps of
the CRUD operations), modelled as an association list. -/
abbrev KVMap := List (String × SQLValue)

/-- Models the Go conversion `string(v)` of a byte slice to a string: the
bytes are taken over verbatim (stated here for byte values below 128,
which is the range exercised in this development). -/
def bytesToString (bs : List Nat) : String :=
  String.mk (bs.map fun b => Char.ofNat b)

/-- The value conversion the row-scanning loops of `GetTableData` and
`executeSelectQuery` apply to each scanned value:
`case []byte: row[col] = string(v); default: row[col] = v`,
with SQL NULL passed through as nil. -/
def convertValue : SQLValue → SQLValue
  | .blobV bs => .textV (bytesToString bs)
  | v => v

/-- One lowercase hexadecimal digit. -/
def hexDigit (n : Nat) : Char :=
  if n < 10 then Char.ofNat (48 + n) else Char.ofNat (87 + n)

/-- Modelled from the spec: the hex-encoded text the spec says blob values
are surfaced as ("Blob/binary values are surfaced as hex-encoded text").
The source contains no such encoder; this definition exists only to be
compared against the conversion the code performs. -/
def specHexEncode (bs : List Nat) : String :=
  String.mk (bs.flatMap fun b => [hexDigit (b / 16 % 16), hexDigit (b % 16)])

/-! ## The database model

The embedded engine state: a set of tables, each with its pragma-visible
schema, its indexes, and its rows.
-/

/-- One result row of `PRAGMA table_info`: (cid, name, type, notnull,
dflt_value, pk), with the integer flags kept as integers exactly as the
pragma reports them. -/
structure PragmaColumn where
  cid : Nat
  name : String
  typ : String
  notnull : Nat
  dflt : Option String
  pk : Nat
deriving DecidableEq

/-- One result row of `PRAGMA index_list`, restricted to the fields the
code consumes: the index name, its unique flag (an integer), and - for the
model of `PRAGMA index_info` - the columns the index covers. -/
structure IndexDef where
  name : String
  unique : Nat
  columns : List String
deriving DecidableEq

/-- A table of the SQLite file: catalog name, pragma schema, indexes, and
stored rows. -/
structure TableDef where
  name : String
  schema : List PragmaColumn
  indexes : List IndexDef
  rows : List Row
deriving DecidableEq

/-- The SQLite database: its tables. -/
structure Database where
  tables : List TableDef
deriving DecidableEq

/-- Catalog lookup of a table by name. -/
def lookupTable (db : Database) (t : String) : Option TableDef :=
  db.tables.find? fun td => td.name == t

/-- Models the engine behaviour of `PRAGMA table_info(t)`: the column rows
of the table when it exists, and the empty row set - with no error - when
it does not (SQLite reports an unknown table to this pragma as zero rows,
not as a failed query). -/
def pragmaTableInfo (db : Database) (t : String) : List PragmaColumn :=
  ((lookupTable db t).map TableDef.schema).getD []

/-- Models the engine behaviour of `PRAGMA index_list(t)`: the index rows
of the table when it exists, and the empty row set otherwise. -/
def pragmaIndexList (db : Database) (t : String) : List IndexDef :=
  ((lookupTable db t).map TableDef.indexes).getD []

/-- Models the engine behaviour of `PRAGMA index_info(name)` (and of the
`pragma_index_info` table-valued function): the covered columns of the
index with that name; index names are global in SQLite. -/
def pragmaIndexInfo (db : Database) (idxName : String) : List String :=
  (((db.tables.flatMap TableDef.indexes).find? fun i => i.name == idxName).map
    IndexDef.columns).getD []

/-! ## Schema introspection (`getUniqueConstraints`, `GetTableSchema`) -/

/-- The schema entry `models.Column` returned to API clients. -/
structure Column where
  cid : Nat
  name : String
  typ : String
  notNull : Bool
  defaultValue : Option String
  primaryKey : Bool
  unique : Bool
deriving DecidableEq

/-- Embeds `getUniqueConstraints`: walk the unique indexes of the table
and, for every column of an index whose `pragma_index_info` row count is
exactly one, record the column as unique.  The Go map of marked columns is
modelled as the list of keys inserted into it. -/
def getUniqueConstraints (db : Database) (t : String) : List String :=
  (pragmaIndexList db t).flatMap fun idx =>
    if idx.unique == 1 then
      (pragmaIndexInfo db idx.name).filter fun _ =>
        (pragmaIndexInfo db idx.name).length == 1
    else []

/-- The column list `GetTableSchema` computes: `PRAGMA table_info` rows
with the integer flags turned into booleans, then the unique marks from
`getUniqueConstraints` applied. -/
def getTableSchemaCols (db : Database) (t : String) : List Column :=
  let cols := (pragmaTableInfo db t).map fun pc =>
    { cid := pc.cid, name := pc.name, typ := pc.typ,
      notNull := pc.notnull == 1, defaultValue := pc.dflt,
      primaryKey := pc.pk == 1, unique := false : Column }
  let uniq := getUniqueConstraints db t
  cols.map fun c => if uniq.contains c.name then { c with unique := true } else c

/-- Embeds `GetTableSchema`.  Its error paths fire only when a pragma
query itself fails; on a syntactically plain table name the pragmas always
succeed (returning zero rows for an unknown table), so in this model the
result is always a success. -/
def GetTableSchema (db : Database) (t : String) : Except String (List Column) :=
  Except.ok (getTableSchemaCols db t)

/-! ## `GetTableData` -/

/-- The returned page (`models.TableData`). -/
structure TableData where
  columns : List Column
  rows : List Row
  total : Nat
deriving DecidableEq

/-- Engine semantics for the raw SQL fragments `GetTableData` hands to
SQLite verbatim: evaluation of a raw `WHERE` fragment - which the engine
may reject with an error (syntax error, unknown column) instead of
yielding a row predicate - and the row ordering `ORDER BY col dir`
produces.  The repository delegates both to the engine, so theorems
quantify over them. -/
structure EngineSem where
  evalWhere : String → Except String (Row → Bool)
  sortRows : String → String → List Row → List Row

/-- Models the engine evaluation of `SELECT ... FROM t [WHERE wc]` (and of
the parallel `SELECT COUNT(*)` query, which shares table and WHERE
fragment): the query fails with `no such table` when the table is absent
from the catalog, and with the engine's error when the raw WHERE fragment
is rejected; otherwise it yields the (filtered) stored rows. -/
def queryRows (eng : EngineSem) (db : Database) (t wc : String) :
    Except String (List Row) :=
  match lookupTable db t with
  | none => Except.error ("no such table: " ++ t)
  | some td =>
    if wc = "" then Except.ok td.rows
    else
      match eng.evalWhere wc with
      | Except.error e => Except.error e
      | Except.ok p => Except.ok (td.rows.filter p)

/-- The sort step of `GetTableData`: only when both `sortColumn` and
`sortDirection` are non-empty, the sort column is checked against the
resolved schema (rejecting unknown names before they reach the SQL text)
and the direction is upper-cased into the `ORDER BY`; otherwise the rows
pass through unsorted. -/
def sortStage (eng : EngineSem) (columns : List Column) (sc sd : String)
    (rs : List Row) : Except String (List Row) :=
  if sc ≠ "" ∧ sd ≠ "" then
    if columns.any (fun c => c.name == sc) then
      Except.ok (eng.sortRows sc (goToUpper sd) rs)
    else
      Except.error ("invalid sort column: " ++ sc)
  else
    Except.ok rs

/-- Models the engine semantics of `LIMIT n OFFSET m`: a negative offset
acts as zero, a negative limit as unlimited. -/
def applyLimitOffset (limit offset : Int) (l : List Row) : List Row :=
  let d := l.drop offset.toNat
  if limit < 0 then d else d.take limit.toNat

/-- The scan loop of `GetTableData`: for each result row, pair every
result column name with the converted value (`convertValue`). -/
def scanRow (columnNames : List String) (r : Row) : Row :=
  columnNames.map fun cn =>
    (cn, convertValue (((r.find? fun p => p.1 == cn).map Prod.snd).getD SQLValue.null))

/-- Embeds `GetTableData`: resolve the schema, run the `COUNT(*)` query -
which executes before the sort check and fails (wrapped as
`failed to get total row count`) for a missing table or a rejected WHERE
fragment - then validate the sort column (only when a direction was
supplied), page, and scan with value conversion.  The subsequent data
query repeats the same table and WHERE fragment with a validated ORDER BY
and a LIMIT/OFFSET added, so once the count query has succeeded it
succeeds as well under the (single-threaded) engine model. -/
def GetTableData (eng : EngineSem) (db : Database) (tableName : String)
    (limit offset : Int) (sortColumn sortDirection whereClause : String) :
    Except String TableData :=
  match GetTableSchema db tableName with
  | Except.error e => Except.error e
  | Except.ok columns =>
    match queryRows eng db tableName whereClause with
    | Except.error e => Except.error ("failed to get total row count: " ++ e)
    | Except.ok filtered =>
      let total := filtered.length
      match sortStage eng columns sortColumn sortDirection filtered with
      | Except.error e => Except.error e
      | Except.ok sorted =>
        let page := applyLimitOffset limit offset sorted
        let columnNames := columns.map Column.name
        Except.ok { columns := columns, rows := page.map (scanRow columnNames),
                    total := total }

/-! ## The `GetTableData` HTTP handler -/

/-- The handler error message for a bad sort direction (the literal of the
source, with its quote characters). -/
def sortDirErrMsg : String :=
  "invalid sort_direction parameter, must be " ++ sq ++ "asc" ++ sq ++
    " or " ++ sq ++ "desc" ++ sq

/-- Embeds the `GetTableData` handler: a missing table name and an invalid
sort direction are rejected with 400 before the database layer is called
(the comparison of `sort_direction` against "asc" / "desc" is the literal,
case-sensitive comparison of the source); database-layer errors surface
as 500. -/
def handleGetTableData (eng : EngineSem) (db : Database) (tableName : String)
    (limit offset : Int) (sortColumn sortDirection whereClause : String) :
    Except (Nat × String) TableData :=
  if tableName = "" then
    Except.error (400, "table name is required")
  else if sortDirection ≠ "" ∧ sortDirection ≠ "asc" ∧ sortDirection ≠ "desc" then
    Except.error (400, sortDirErrMsg)
  else
    match GetTableData eng db tableName limit offset sortColumn sortDirection whereClause with
    | Except.ok d => Except.ok d
    | Except.error e => Except.error (500, e)

/-! ## Constraint-error translation (`parseConstraintError`) -/

/-- Embeds `parseConstraintError`: pattern matching over the engine error
text, rewriting recognized constraint violations into plain-language
messages and passing everything else through verbatim.  Errors are
modelled by their message strings. -/
def parseConstraintError (errMsg : String) : String :=
  if goContains errMsg "UNIQUE constraint failed:" then
    match goSplit errMsg "UNIQUE constraint failed: " with
    | _ :: tableColumn :: _ =>
      match goSplit tableColumn "." with
      | _ :: column :: _ =>
        "The value for " ++ sq ++ column ++ sq ++
          " already exists. This field must be unique."
      | _ => "A unique constraint was violated. This value already exists."
    | _ => "A unique constraint was violated. This value already exists."
  else if goContains errMsg "NOT NULL constraint failed:" then
    match goSplit errMsg "NOT NULL constraint failed: " with
    | _ :: tableColumn :: _ =>
      match goSplit tableColumn "." with
      | _ :: column :: _ =>
        "The field " ++ sq ++ column ++ sq ++ " is required and cannot be empty."
      | _ => "A required field is missing."
    | _ => "A required field is missing."
  else if goContains errMsg "FOREIGN KEY constraint failed" then
    "This operation violates a foreign key constraint. The referenced record may not exist."
  else if goContains errMsg "CHECK constraint failed:" then
    match goSplit errMsg "CHECK constraint failed: " with
    | _ :: constraintTxt :: _ =>
      "The value violates a check constraint: " ++ constraintTxt
    | _ => "The value violates a check constraint."
  else errMsg

/-! ## CRUD operations (`InsertRow`, `UpdateRow`, `DeleteRow`)

The write operations are embedded as functions returning the new database
state together with either an error or the statement handed to the engine:
the SQL text (with the interpolated identifiers) and the list of bound
parameter values.  An error result means the engine was never called, so
the state component is the input state unchanged.
-/

/-- The WHERE-condition `col = ?` with SQLite equality semantics: a NULL
on either side never matches (models the engine evaluation of the
parameterized equality the code generates). -/
def evalEq (r : Row) (p : String × SQLValue) : Bool :=
  match ((r.find? fun q => q.1 == p.1).map Prod.snd).getD SQLValue.null, p.2 with
  | SQLValue.null, _ => false
  | _, SQLValue.null => false
  | a, b => a == b

/-- Models the engine evaluation of the generated WHERE clause: the
conditions of the map joined left-to-right with AND. -/
def evalConj (w : KVMap) (r : Row) : Bool :=
  w.foldr (fun p acc => evalEq r p && acc) true

/-- Models `UPDATE ... SET ...` applied to one row: every column named in
`data` is overwritten with the bound value. -/
def applyData (data : KVMap) (r : Row) : Row :=
  r.map fun p =>
    match data.find? (fun q => q.1 == p.1) with
    | some q => (p.1, q.2)
    | none => p

/-- The effect of the generated UPDATE on one row: changed exactly when
the row satisfies the generated WHERE clause. -/
def updatedRow (data w : KVMap) (r : Row) : Row :=
  if evalConj w r then applyData data r else r

/-- The effect of the generated UPDATE on one table. -/
def updateTableDef (data w : KVMap) (t : TableDef) : TableDef :=
  { t with rows := t.rows.map (updatedRow data w) }

/-- The effect of the generated DELETE on one table: exactly the rows
satisfying the generated WHERE clause are removed. -/
def deleteFromTable (w : KVMap) (t : TableDef) : TableDef :=
  { t with rows := t.rows.filter fun r => !(evalConj w r) }

/-- The SQL text `UpdateRow` builds:
`UPDATE <t> SET <col> = ?, ... WHERE <col> = ? AND ...` - the map keys are
interpolated into the text, the values are bound. -/
def updateQueryString (tn : String) (data w : KVMap) : String :=
  "UPDATE " ++ tn ++ " SET " ++
    String.intercalate ", " (data.map fun p => p.1 ++ " = ?") ++
    " WHERE " ++
    String.intercalate " AND " (w.map fun p => p.1 ++ " = ?")

/-- The SQL text `DeleteRow` builds. -/
def deleteQueryString (tn : String) (w : KVMap) : String :=
  "DELETE FROM " ++ tn ++ " WHERE " ++
    String.intercalate " AND " (w.map fun p => p.1 ++ " = ?")

/-- The SQL text `InsertRow` builds. -/
def insertQueryString (tn : String) (data : KVMap) : String :=
  "INSERT INTO " ++ tn ++ " (" ++
    String.intercalate ", " (data.map fun p => p.1) ++
    ") VALUES (" ++
    String.intercalate ", " (data.map fun _ => "?") ++ ")"

/-- Embeds `UpdateRow`: empty `data`, then empty `where`, are rejected
before any statement is built or executed; otherwise the statement is
built with the map keys interpolated (no schema check of any kind) and
executed against the engine. -/
def UpdateRow (db : Database) (tn : String) (data w : KVMap) :
    Database × Except String (String × List SQLValue) :=
  if data.isEmpty then
    (db, Except.error "no data provided")
  else if w.isEmpty then
    (db, Except.error "no where clause provided")
  else
    let db2 : Database :=
      { tables := db.tables.map fun t => if t.name == tn then updateTableDef data w t else t }
    (db2, Except.ok (updateQueryString tn data w, data.map Prod.snd ++ w.map Prod.snd))

/-- Embeds `DeleteRow`: an empty `where` map is rejected before any
statement is built or executed; otherwise the statement is built with the
map keys interpolated (no schema check) and executed. -/
def DeleteRow (db : Database) (tn : String) (w : KVMap) :
    Database × Except String (String × List SQLValue) :=
  if w.isEmpty then
    (db, Except.error "no where clause provided")
  else
    let db2 : Database :=
      { tables := db.tables.map fun t => if t.name == tn then deleteFromTable w t else t }
    (db2, Except.ok (deleteQueryString tn w, w.map Prod.snd))

/-- Embeds `InsertRow`: empty `data` is rejected; otherwise the
parameterized INSERT runs and an engine failure (`engineErr`, the error
text the driver reports, supplied as a model parameter) is translated
through `parseConstraintError`. -/
def InsertRow (tn : String) (data : KVMap) (engineErr : Option String) :
    Except String (String × List SQLValue) :=
  if data.isEmpty then
    Except.error "no data provided"
  else
    match engineErr with
    | some e => Except.error (parseConstraintError e)
    | none => Except.ok (insertQueryString tn data, data.map Prod.snd)

/-! ## Raw SQL execution (`ExecuteSQL`) -/

/-- The result record `models.SQLQueryResult`. -/
structure SQLQueryResult where
  columns : List String
  rows : List (List SQLValue)
  rowCount : Nat
  rowsAffected : Int
deriving DecidableEq

/-- Engine semantics for free-form SQL: the column names and raw row
tuples a query produces, and the rows-affected count of a mutating
statement. -/
structure RawEngine where
  runQuery : String → List String × List (List SQLValue)
  runExec : String → Int

/-- Embeds `executeSelectQuery`: column names and row tuples of the query
result, with the same per-value conversion as the data endpoint. -/
def executeSelectQuery (eng : RawEngine) (q : String) : SQLQueryResult :=
  let res := eng.runQuery q
  let rows := res.2.map fun r => r.map convertValue
  { columns := res.1, rows := rows, rowCount := rows.length, rowsAffected := 0 }

/-- Embeds `executeNonSelectQuery`: a rows-affected summary. -/
def executeNonSelectQuery (eng : RawEngine) (q : String) : SQLQueryResult :=
  let n := eng.runExec q
  { columns := ["rows_affected"], rows := [[SQLValue.intV n]],
    rowCount := 1, rowsAffected := n }

/-- Embeds `ExecuteSQL`: trim surrounding whitespace, reject the empty
query, then dispatch on `strings.HasPrefix(strings.ToUpper(q), "SELECT")`
(the ASCII upper-casing the source relies on). -/
def ExecuteSQL (eng : RawEngine) (sqlQuery : String) : Except String SQLQueryResult :=
  let q := goTrim sqlQuery
  if q = "" then
    Except.error "empty SQL query"
  else if goHasPrefixStr "SELECT" (goToUpper q) then
    Except.ok (executeSelectQuery eng q)
  else
    Except.ok (executeNonSelectQuery eng q)

/-! ## Concrete sample data (for witnesses and counterexamples)

The `users` table mirrors the fixture of `handlers_test.go`:
`users(id INTEGER PRIMARY KEY, name TEXT NOT NULL, email TEXT UNIQUE NOT
NULL, age INTEGER)` with its automatic single-column unique index on
`email`, populated with two rows.
-/

/-- The `users` table of the test fixture. -/
def usersTable : TableDef :=
  { name := "users"
    schema :=
      [ { cid := 0, name := "id", typ := "INTEGER", notnull := 0, dflt := none, pk := 1 }
      , { cid := 1, name := "name", typ := "TEXT", notnull := 1, dflt := none, pk := 0 }
      , { cid := 2, name := "email", typ := "TEXT", notnull := 1, dflt := none, pk := 0 }
      , { cid := 3, name := "age", typ := "INTEGER", notnull := 0, dflt := none, pk := 0 } ]
    indexes := [ { name := "sqlite_autoindex_users_1", unique := 1, columns := ["email"] } ]
    rows :=
      [ [ ("id", SQLValue.intV 1), ("name", SQLValue.textV "John Doe")
        , ("email", SQLValue.textV "john@example.com"), ("age", SQLValue.intV 30) ]
      , [ ("id", SQLValue.intV 2), ("name", SQLValue.textV "Jane Smith")
        , ("email", SQLValue.textV "jane@example.com"), ("age", SQLValue.intV 25) ] ] }

/-- A sample database holding the test fixture table. -/
def sampleDb : Database := { tables := [usersTable] }

/-- A database with no tables at all. -/
def emptyDb : Database := { tables := [] }

/-- A database with a single-column blob table holding the two bytes
104 105 (the ASCII text "hi"). -/
def blobDb : Database :=
  { tables :=
      [ { name := "files"
          schema := [ { cid := 0, name := "data", typ := "BLOB", notnull := 0, dflt := none, pk := 0 } ]
          indexes := []
          rows := [ [ ("data", SQLValue.blobV [104, 105]) ] ] } ] }

/-- A trivial instantiation of the engine-semantics parameters: every
WHERE fragment is accepted and matches everything, and ORDER BY keeps the
row order. -/
def trivEngine : EngineSem :=
  { evalWhere := fun _ => Except.ok (fun _ => true), sortRows := fun _ _ rs => rs }

/-- A trivial raw-SQL engine for witnesses. -/
def trivRawEngine : RawEngine :=
  { runQuery := fun _ => (["one"], [[SQLValue.intV 1]]), runExec := fun _ => 3 }

/-- Whether a fallible operation succeeded. -/
def isOkE {ε α : Type} : Except ε α → Bool
  | Except.ok _ => true
  | Except.error _ => false

/-! ## Helper lemmas -/

theorem hasPref_append (xs ys : List Char) : hasPref xs (xs ++ ys) = true := by
  induction xs with
  | nil => rfl
  | cons a as ih => simp [hasPref, ih]

theorem containsSub_of_hasPref {sep l : List Char} (h : hasPref sep l = true) :
    containsSub sep l = true := by
  cases l with
  | nil =>
    cases sep with
    | nil => rfl
    | cons a as => simp [hasPref] at h
  | cons a rest => simp [containsSub, h]

theorem splitGo1_skip (c0 : Char) (sep pre l : List Char) :
    splitGo1 c0 sep (pre ++ l) pre.length = splitGo1 c0 sep l 0 := by
  induction pre with
  | nil => rfl
  | cons a pre ih => simpa [splitGo1] using ih

theorem splitGo1_no_occur (c0 : Char) (sep s : List Char)
    (h : containsSub (c0 :: sep) s = false) :
    splitGo1 c0 sep s 0 = [s] := by
  induction s with
  | nil => rfl
  | cons a rest ih =>
    simp only [containsSub, Bool.or_eq_false_iff] at h
    simp [splitGo1, h.1, ih h.2]

theorem splitGo1_at_head (c0 : Char) (sep l : List Char) :
    splitGo1 c0 sep ((c0 :: sep) ++ l) 0 = [] :: splitGo1 c0 sep l 0 := by
  have hp : hasPref (c0 :: sep) (c0 :: (sep ++ l)) = true := hasPref_append _ _
  simp [splitGo1, hp, splitGo1_skip]

theorem splitGo1_single_no (d : Char) (s : List Char) (h : d ∉ s) :
    splitGo1 d [] s 0 = [s] := by
  induction s with
  | nil => rfl
  | cons a rest ih =>
    have hda : (d == a) = false := by
      simp only [List.mem_cons] at h
      exact beq_eq_false_iff_ne.mpr (fun e => h (Or.inl e))
    have hrest : d ∉ rest := fun hm => h (List.mem_cons_of_mem _ hm)
    simp [splitGo1, hasPref, hda, ih hrest]

theorem splitGo1_single_mid (d : Char) (t c : List Char) (h : d ∉ t) :
    splitGo1 d [] (t ++ d :: c) 0 = t :: splitGo1 d [] c 0 := by
  induction t with
  | nil => simp [splitGo1, hasPref]
  | cons a t ih =>
    have hda : (d == a) = false := by
      simp only [List.mem_cons] at h
      exact beq_eq_false_iff_ne.mpr (fun e => h (Or.inl e))
    have ht : d ∉ t := fun hm => h (List.mem_cons_of_mem _ hm)
    simp [splitGo1, hasPref, hda, ih ht]

theorem goSplit_head_marker (sep rest : String) (c0 : Char) (cs : List Char)
    (hsep : sep.data = c0 :: cs)
    (h : containsSub sep.data rest.data = false) :
    goSplit (sep ++ rest) sep = ["", rest] := by
  have hd : (sep ++ rest).data = (c0 :: cs) ++ rest.data := by
    show sep.data ++ rest.data = _
    rw [hsep]
  rw [hsep] at h
  simp only [goSplit, hsep, hd, splitGo1_at_head, splitGo1_no_occur c0 cs rest.data h]
  rfl

theorem goSplit_dot (t c : String) (ht : ('.' : Char) ∉ t.data)
    (hc : ('.' : Char) ∉ c.data) :
    goSplit (t ++ "." ++ c) "." = [t, c] := by
  have hd : (t ++ "." ++ c).data = t.data ++ '.' :: c.data := by
    show (t.data ++ ['.']) ++ c.data = _
    rw [List.append_assoc]
    rfl
  simp only [goSplit, hd]
  simp only [splitGo1_single_mid '.' t.data c.data ht, splitGo1_single_no '.' c.data hc]
  rfl

theorem evalConj_iff (w : KVMap) (r : Row) :
    evalConj w r = true ↔ ∀ p ∈ w, evalEq r p = true := by
  induction w with
  | nil => simp [evalConj]
  | cons p w ih =>
    rw [show evalConj (p :: w) r = (evalEq r p && evalConj w r) from rfl,
        Bool.and_eq_true, ih]
    simp [List.forall_mem_cons]

theorem mem_getUniqueConstraints (db : Database) (t x : String) :
    x ∈ getUniqueConstraints db t ↔
      ∃ idx ∈ pragmaIndexList db t, idx.unique = 1 ∧
        x ∈ pragmaIndexInfo db idx.name ∧ (pragmaIndexInfo db idx.name).length = 1 := by
  simp only [getUniqueConstraints, List.mem_flatMap]
  constructor
  · rintro ⟨idx, hidx, hx⟩
    by_cases h : idx.unique == 1
    · rw [if_pos h] at hx
      have hx2 := List.mem_filter.mp hx
      exact ⟨idx, hidx, by simpa using h, hx2.1, by simpa using hx2.2⟩
    · rw [if_neg h] at hx
      cases hx
  · rintro ⟨idx, hidx, h1, hmem, hlen⟩
    refine ⟨idx, hidx, ?_⟩
    rw [if_pos (by simpa using h1)]
    exact List.mem_filter.mpr ⟨hmem, by simpa using hlen⟩

/-! ## Claims -/

/-- Claim C2, corrected.  `GetTableSchema` does not detect a nonexistent
table: the introspection pragmas answer with zero rows rather than an
error, so for every table name absent from the catalog the call returns a
successful empty column list. -/
theorem c2_schema_missing_table_ok (db : Database) (t : String)
    (h : lookupTable db t = none) :
    GetTableSchema db t = Except.ok [] := by
  simp [GetTableSchema, getTableSchemaCols, pragmaTableInfo, getUniqueConstraints,
        pragmaIndexList, h]

/-- Claim C2, counterexample to the claim as stated: on a database with no
tables, `GetTableSchema` of a nonexistent table returns a successful empty
column list instead of an error. -/
theorem c2_cex :
    lookupTable emptyDb "nosuch" = none ∧
    GetTableSchema emptyDb "nosuch" = Except.ok [] := by
  exact ⟨rfl, rfl⟩

/-- Claim C2, witness for the corrected theorem at a concrete input. -/
theorem c2_wit :
    lookupTable emptyDb "missing" = none ∧
    GetTableSchema emptyDb "missing" = Except.ok [] :=
  ⟨rfl, c2_schema_missing_table_ok emptyDb "missing" rfl⟩

/-- Claim C6: for every table name, `UpdateRow` with an empty data map or
an empty where map, and `DeleteRow` with an empty where map, return an
error without executing any statement (the error result carries no
statement) and leave the database state unchanged. -/
theorem c6_empty_maps_rejected (db : Database) (tn : String) (data w : KVMap) :
    (data = [] → UpdateRow db tn data w = (db, Except.error "no data provided")) ∧
    (data ≠ [] → w = [] →
      UpdateRow db tn data w = (db, Except.error "no where clause provided")) ∧
    DeleteRow db tn [] = (db, Except.error "no where clause provided") := by
  refine ⟨?_, ?_, ?_⟩
  · intro h
    subst h
    rfl
  · intro hd hw
    subst hw
    cases data with
    | nil => exact absurd rfl hd
    | cons p rest => rfl
  · rfl

/-- Claim C6, witness at a concrete input. -/
theorem c6_wit :
    UpdateRow sampleDb "users" [] [("id", SQLValue.intV 1)] =
      (sampleDb, Except.error "no data provided") ∧
    UpdateRow sampleDb "users" [("age", SQLValue.intV 31)] [] =
      (sampleDb, Except.error "no where clause provided") ∧
    DeleteRow sampleDb "users" [] =
      (sampleDb, Except.error "no where clause provided") :=
  ⟨(c6_empty_maps_rejected sampleDb "users" [] [("id", SQLValue.intV 1)]).1 rfl,
   (c6_empty_maps_rejected sampleDb "users" [("age", SQLValue.intV 31)] []).2.1
      (by decide) rfl,
   (c6_empty_maps_rejected sampleDb "users" [] []).2.2⟩

/-- Claim C7: `ExecuteSQL` trims surrounding whitespace and rejects the
empty or all-whitespace string; when the trimmed text begins with SELECT
(compared case-insensitively via upper-casing) it returns the column names
and converted row tuples of the query result, and for any other leading
text it returns a rows-affected summary. -/
theorem c7_dispatch (eng : RawEngine) (s : String) :
    (goTrim s = "" → ExecuteSQL eng s = Except.error "empty SQL query") ∧
    (goTrim s ≠ "" → goHasPrefixStr "SELECT" (goToUpper (goTrim s)) = true →
      ExecuteSQL eng s = Except.ok (executeSelectQuery eng (goTrim s)) ∧
      executeSelectQuery eng (goTrim s) =
        { columns := (eng.runQuery (goTrim s)).1,
          rows := (eng.runQuery (goTrim s)).2.map (fun r => r.map convertValue),
          rowCount := ((eng.runQuery (goTrim s)).2.map (fun r => r.map convertValue)).length,
          rowsAffected := 0 }) ∧
    (goTrim s ≠ "" → goHasPrefixStr "SELECT" (goToUpper (goTrim s)) = false →
      ExecuteSQL eng s = Except.ok
        { columns := ["rows_affected"],
          rows := [[SQLValue.intV (eng.runExec (goTrim s))]],
          rowCount := 1, rowsAffected := eng.runExec (goTrim s) }) := by
  refine ⟨?_, ?_, ?_⟩
  · intro h
    simp [ExecuteSQL, h]
  · intro h1 h2
    constructor
    · simp [ExecuteSQL, h1, h2]
    · rfl
  · intro h1 h2
    simp [ExecuteSQL, executeNonSelectQuery, h1, h2]

/-- Claim C7, witness at concrete inputs: a padded mixed-case SELECT takes
the query path and a DELETE takes the rows-affected path. -/
theorem c7_wit :
    ExecuteSQL trivRawEngine "  SeLeCt 1 " =
      Except.ok (executeSelectQuery trivRawEngine "SeLeCt 1") ∧
    ExecuteSQL trivRawEngine " DELETE FROM t " =
      Except.ok { columns := ["rows_affected"], rows := [[SQLValue.intV 3]],
                  rowCount := 1, rowsAffected := 3 } :=
  ⟨((c7_dispatch trivRawEngine "  SeLeCt 1 ").2.1 (by decide) (by decide)).1,
   (c7_dispatch trivRawEngine " DELETE FROM t ").2.2 (by decide) (by decide)⟩

/-- Claim C10: for `UpdateRow` and `DeleteRow` with non-empty maps, the
statement handed to the engine joins the equality conditions of the where
map with AND (`updateQueryString` / `deleteQueryString`), and a row is
affected exactly when it satisfies every condition simultaneously: the
conjunction evaluates to true precisely when all conditions hold, deleted
rows are exactly those satisfying all conditions, and an update rewrites a
row exactly when all conditions hold. -/
theorem c10_conjunction (db : Database) (tn : String) (data w : KVMap)
    (hd : data ≠ []) (hw : w ≠ []) :
    ((UpdateRow db tn data w).2 =
        Except.ok (updateQueryString tn data w, data.map Prod.snd ++ w.map Prod.snd) ∧
     (DeleteRow db tn w).2 =
        Except.ok (deleteQueryString tn w, w.map Prod.snd)) ∧
    (∀ r : Row, evalConj w r = true ↔ ∀ p ∈ w, evalEq r p = true) ∧
    (∀ t : TableDef, ∀ r : Row,
       (r ∈ (deleteFromTable w t).rows ↔
         r ∈ t.rows ∧ ¬ (∀ p ∈ w, evalEq r p = true))) ∧
    (∀ r : Row, updatedRow data w r =
       if (∀ p ∈ w, evalEq r p = true) then applyData data r else r) := by
  have hdE : data.isEmpty = false := by
    cases data with
    | nil => exact absurd rfl hd
    | cons p rest => rfl
  have hwE : w.isEmpty = false := by
    cases w with
    | nil => exact absurd rfl hw
    | cons p rest => rfl
  refine ⟨⟨?_, ?_⟩, evalConj_iff w, ?_, ?_⟩
  · simp [UpdateRow, hdE, hwE]
  · simp [DeleteRow, hwE]
  · intro t r
    rw [show (deleteFromTable w t).rows = t.rows.filter (fun r => !(evalConj w r)) from rfl,
        List.mem_filter]
    constructor
    · rintro ⟨hm, hb⟩
      refine ⟨hm, fun hall => ?_⟩
      rw [(evalConj_iff w r).mpr hall] at hb
      cases hb
    · rintro ⟨hm, hall⟩
      refine ⟨hm, ?_⟩
      cases hb : evalConj w r with
      | true => exact absurd ((evalConj_iff w r).mp hb) hall
      | false => rfl
  · intro r
    by_cases hb : evalConj w r = true
    · rw [show updatedRow data w r = if evalConj w r then applyData data r else r from rfl,
          if_pos hb, if_pos ((evalConj_iff w r).mp hb)]
    · rw [show updatedRow data w r = if evalConj w r then applyData data r else r from rfl,
          if_neg hb, if_neg (fun hall => hb ((evalConj_iff w r).mpr hall))]

/-- Claim C10, witness: a two-condition delete at a concrete input. -/
theorem c10_wit :
    (DeleteRow sampleDb "users"
        [("id", SQLValue.intV 1), ("age", SQLValue.intV 30)]).2 =
      Except.ok (deleteQueryString "users"
          [("id", SQLValue.intV 1), ("age", SQLValue.intV 30)],
        [SQLValue.intV 1, SQLValue.intV 30]) ∧
    deleteQueryString "users" [("id", SQLValue.intV 1), ("age", SQLValue.intV 30)] =
      "DELETE FROM users WHERE id = ? AND age = ?" :=
  ⟨(c10_conjunction sampleDb "users" [("name", SQLValue.textV "X")]
      [("id", SQLValue.intV 1), ("age", SQLValue.intV 30)]
      (by decide) (by decide)).1.2,
   by decide⟩

/-- Claim C1, corrected.  Only the sort column of `GetTableData` is
validated against the freshly resolved schema (and only on the code path
where a sort direction is also supplied, on inputs where the preceding
`COUNT(*)` query succeeds - an existing table and an accepted WHERE
fragment); the keys of the data and where maps of `UpdateRow` and
`DeleteRow` are interpolated into the SQL text without any schema check -
the operations succeed for arbitrary key names, with exactly the map
values bound as parameters. -/
theorem c1_identifier_validation (eng : EngineSem) (db : Database) (tn : String)
    (l o : Int) (sc sd wc : String) (data w : KVMap) (rs : List Row) :
    (queryRows eng db tn wc = Except.ok rs → sc ≠ "" → sd ≠ "" →
      (getTableSchemaCols db tn).any (fun c => c.name == sc) = false →
      GetTableData eng db tn l o sc sd wc =
        Except.error ("invalid sort column: " ++ sc)) ∧
    (data ≠ [] → w ≠ [] →
      (UpdateRow db tn data w).2 =
        Except.ok (updateQueryString tn data w, data.map Prod.snd ++ w.map Prod.snd)) ∧
    (w ≠ [] →
      (DeleteRow db tn w).2 =
        Except.ok (deleteQueryString tn w, w.map Prod.snd)) := by
  refine ⟨?_, ?_, ?_⟩
  · intro hq h1 h2 h3
    simp [GetTableData, GetTableSchema, hq, sortStage, h1, h2, h3]
  · intro hd hw
    have hdE : data.isEmpty = false := by
      cases data with
      | nil => exact absurd rfl hd
      | cons p rest => rfl
    have hwE : w.isEmpty = false := by
      cases w with
      | nil => exact absurd rfl hw
      | cons p rest => rfl
    simp [UpdateRow, hdE, hwE]
  · intro hw
    have hwE : w.isEmpty = false := by
      cases w with
      | nil => exact absurd rfl hw
      | cons p rest => rfl
    simp [DeleteRow, hwE]

/-- Claim C1, counterexample to the claim as stated: `UpdateRow` accepts a
data key that does not exist in the schema of `users` and interpolates it
into the SQL text instead of rejecting the operation. -/
theorem c1_cex :
    (getTableSchemaCols sampleDb "users").any (fun c => c.name == "bogus") = false ∧
    (UpdateRow sampleDb "users" [("bogus", SQLValue.intV 1)]
        [("id", SQLValue.intV 1)]).2 =
      Except.ok ("UPDATE users SET bogus = ? WHERE id = ?",
        [SQLValue.intV 1, SQLValue.intV 1]) := by
  exact ⟨by decide, by decide⟩

/-- Claim C1, witness for the corrected theorem at concrete inputs. -/
theorem c1_wit :
    GetTableData trivEngine sampleDb "users" 100 0 "nope" "asc" "" =
      Except.error "invalid sort column: nope" ∧
    (DeleteRow sampleDb "users" [("id", SQLValue.intV 1)]).2 =
      Except.ok (deleteQueryString "users" [("id", SQLValue.intV 1)],
        [SQLValue.intV 1]) :=
  ⟨(c1_identifier_validation trivEngine sampleDb "users" 100 0 "nope" "asc" ""
      [] [] usersTable.rows).1 (by decide) (by decide) (by decide) (by decide),
   (c1_identifier_validation trivEngine sampleDb "users" 100 0 "nope" "asc" ""
      [] [("id", SQLValue.intV 1)] usersTable.rows).2.2 (by decide)⟩

/-- Claim C3, corrected.  On inputs where the `COUNT(*)` query succeeds
(an existing table and an accepted WHERE fragment), an unknown sort
column makes `GetTableData` fail only when a non-empty sort direction is
also supplied; when the sort direction is empty the sort column is
silently ignored and the call succeeds. -/
theorem c3_sort_column_validation (eng : EngineSem) (db : Database) (tn : String)
    (l o : Int) (sc sd wc : String) (rs : List Row)
    (hq : queryRows eng db tn wc = Except.ok rs) :
    (sc ≠ "" → sd ≠ "" →
      (getTableSchemaCols db tn).any (fun c => c.name == sc) = false →
      GetTableData eng db tn l o sc sd wc =
        Except.error ("invalid sort column: " ++ sc)) ∧
    isOkE (GetTableData eng db tn l o sc "" wc) = true := by
  constructor
  · intro h1 h2 h3
    simp [GetTableData, GetTableSchema, hq, sortStage, h1, h2, h3]
  · simp [GetTableData, GetTableSchema, hq, sortStage, isOkE]

/-- Claim C3, counterexample to the claim as stated: a sort column absent
from the schema with an empty sort direction is silently ignored - the
call succeeds instead of failing. -/
theorem c3_cex :
    (getTableSchemaCols sampleDb "users").any (fun c => c.name == "bogus") = false ∧
    isOkE (GetTableData trivEngine sampleDb "users" 100 0 "bogus" "" "") = true := by
  exact ⟨by decide, by decide⟩

/-- Claim C3, witness for the corrected theorem at a concrete input. -/
theorem c3_wit :
    GetTableData trivEngine sampleDb "users" 100 0 "bogus" "asc" "" =
      Except.error "invalid sort column: bogus" :=
  (c3_sort_column_validation trivEngine sampleDb "users" 100 0 "bogus" "asc" ""
      usersTable.rows (by decide)).1 (by decide) (by decide) (by decide)

/-- Claim C4, corrected.  The handler validates `sort_direction`
case-sensitively: with a non-empty table name, every value other than
exactly "asc", "desc" or the empty string - including upper- and
mixed-case variants - is rejected with 400 before the database layer (and
hence the engine) is touched, for every database and engine semantics;
the three accepted values are passed through to the database layer. -/
theorem c4_sort_direction_case (eng : EngineSem) (db : Database) (tn : String)
    (l o : Int) (sc sd wc : String) (htn : tn ≠ "") :
    (sd ≠ "" → sd ≠ "asc" → sd ≠ "desc" →
      handleGetTableData eng db tn l o sc sd wc =
        Except.error (400, sortDirErrMsg)) ∧
    (sd = "" ∨ sd = "asc" ∨ sd = "desc" →
      handleGetTableData eng db tn l o sc sd wc =
        match GetTableData eng db tn l o sc sd wc with
        | Except.ok d => Except.ok d
        | Except.error e => Except.error (500, e)) := by
  constructor
  · intro h1 h2 h3
    simp [handleGetTableData, htn, h1, h2, h3]
  · intro h
    rcases h with h | h | h <;> simp [handleGetTableData, htn, h]

/-- Claim C4, counterexample to the claim as stated: the case variant
"ASC" is rejected with 400 instead of being accepted. -/
theorem c4_cex :
    handleGetTableData trivEngine sampleDb "users" 100 0 "" "ASC" "" =
      Except.error (400, sortDirErrMsg) := by
  decide

/-- Claim C4, witness for the corrected theorem at a concrete input. -/
theorem c4_wit :
    handleGetTableData trivEngine sampleDb "users" 100 0 "" "Desc" "" =
      Except.error (400, sortDirErrMsg) :=
  (c4_sort_direction_case trivEngine sampleDb "users" 100 0 "" "Desc" ""
      (by decide)).1 (by decide) (by decide) (by decide)

/-- Claim C5, corrected.  Byte-slice (blob) values are surfaced as text by
reinterpreting the raw bytes as a string - not hex-encoded - while all
other scalar types (text, integer, real, null) pass through natively; and
every row `GetTableData` returns is the scan (with this conversion) of
some raw row. -/
theorem c5_value_conversion :
    (∀ bs, convertValue (SQLValue.blobV bs) = SQLValue.textV (bytesToString bs)) ∧
    (∀ s, convertValue (SQLValue.textV s) = SQLValue.textV s) ∧
    (∀ i, convertValue (SQLValue.intV i) = SQLValue.intV i) ∧
    (∀ q, convertValue (SQLValue.realV q) = SQLValue.realV q) ∧
    convertValue SQLValue.null = SQLValue.null ∧
    (∀ (eng : EngineSem) (db : Database) (tn : String) (l o : Int)
       (sc sd wc : String) (td : TableData),
      GetTableData eng db tn l o sc sd wc = Except.ok td →
      ∀ row ∈ td.rows, ∃ r : Row,
        row = scanRow ((getTableSchemaCols db tn).map Column.name) r) := by
  refine ⟨fun _ => rfl, fun _ => rfl, fun _ => rfl, fun _ => rfl, rfl, ?_⟩
  intro eng db tn l o sc sd wc td h row hrow
  simp only [GetTableData, GetTableSchema] at h
  split at h
  · cases h
  · split at h
    · cases h
    · injection h with h2
      rw [← h2] at hrow
      simp only [List.mem_map] at hrow
      obtain ⟨r, _, hr⟩ := hrow
      exact ⟨r, hr.symm⟩

/-- Claim C5, counterexample to the claim as stated: the blob bytes
104 105 are surfaced as the raw string "hi", not as the hex encoding
"6869" the spec describes. -/
theorem c5_cex :
    GetTableData trivEngine blobDb "files" 100 0 "" "" "" =
      Except.ok { columns := [{ cid := 0, name := "data", typ := "BLOB",
                                notNull := false, defaultValue := none,
                                primaryKey := false, unique := false }],
                  rows := [[("data", SQLValue.textV "hi")]], total := 1 } ∧
    SQLValue.textV "hi" ≠ SQLValue.textV (specHexEncode [104, 105]) := by
  exact ⟨by decide, by decide⟩

/-- Claim C5, witness for the corrected theorem at a concrete input. -/
theorem c5_wit :
    ∃ r : Row, [("data", SQLValue.textV "hi")] =
      scanRow ((getTableSchemaCols blobDb "files").map Column.name) r :=
  c5_value_conversion.2.2.2.2.2 trivEngine blobDb "files" 100 0 "" "" ""
    { columns := [{ cid := 0, name := "data", typ := "BLOB", notNull := false,
                    defaultValue := none, primaryKey := false, unique := false }],
      rows := [[("data", SQLValue.textV "hi")]], total := 1 }
    (by decide) [("data", SQLValue.textV "hi")] (by decide)

/-- Claim C8: `GetTableSchema` marks a column unique exactly when some
single-column unique index covers it; columns covered only by multi-column
unique indexes stay unmarked.  The hypothesis `hwf` states that the index
rows of the table answer `PRAGMA index_info` with their own columns
(index names are unique in an SQLite file). -/
theorem c8_unique_marking (db : Database) (t : String) (td : TableDef)
    (hlk : lookupTable db t = some td)
    (hwf : ∀ idx ∈ td.indexes, pragmaIndexInfo db idx.name = idx.columns) :
    GetTableSchema db t = Except.ok (getTableSchemaCols db t) ∧
    ∀ c ∈ getTableSchemaCols db t,
      (c.unique = true ↔
        ∃ idx ∈ td.indexes, idx.unique = 1 ∧ idx.columns = [c.name]) := by
  refine ⟨rfl, ?_⟩
  intro c hc
  have hil : pragmaIndexList db t = td.indexes := by simp [pragmaIndexList, hlk]
  have key : ∀ x : String, x ∈ getUniqueConstraints db t ↔
      ∃ idx ∈ td.indexes, idx.unique = 1 ∧ idx.columns = [x] := by
    intro x
    rw [mem_getUniqueConstraints, hil]
    constructor
    · rintro ⟨idx, hidx, hu, hmem, hlen⟩
      rw [hwf idx hidx] at hmem hlen
      obtain ⟨a, ha⟩ := List.length_eq_one.mp hlen
      rw [ha] at hmem
      simp only [List.mem_singleton] at hmem
      exact ⟨idx, hidx, hu, by rw [ha, hmem]⟩
    · rintro ⟨idx, hidx, hu, hcols⟩
      refine ⟨idx, hidx, hu, ?_, ?_⟩
      · rw [hwf idx hidx, hcols]
        simp
      · rw [hwf idx hidx, hcols]
        rfl
  simp only [getTableSchemaCols, List.mem_map] at hc
  obtain ⟨b, hb, hbc⟩ := hc
  obtain ⟨pc, hpc, hbe⟩ := hb
  subst hbc
  by_cases hct : (getUniqueConstraints db t).contains b.name = true
  · rw [if_pos hct]
    have hmem : b.name ∈ getUniqueConstraints db t := by simpa using hct
    exact iff_of_true rfl ((key b.name).mp hmem)
  · rw [if_neg hct]
    have hnm : b.name ∉ getUniqueConstraints db t := by simpa using hct
    have hbu : b.unique = false := by rw [← hbe]
    refine iff_of_false (by rw [hbu]; exact Bool.false_ne_true) ?_
    intro hex
    exact hnm ((key b.name).mpr hex)

/-- Claim C8, witness at the test fixture: the automatic single-column
unique index of `users.email` and no other column. -/
theorem c8_wit :
    lookupTable sampleDb "users" = some usersTable ∧
    ∀ c ∈ getTableSchemaCols sampleDb "users",
      (c.unique = true ↔
        ∃ idx ∈ usersTable.indexes, idx.unique = 1 ∧ idx.columns = [c.name]) :=
  ⟨rfl, (c8_unique_marking sampleDb "users" usersTable rfl (by decide)).2⟩

/-- Claim C9: an insert failing with an engine error of the exact shape
`UNIQUE constraint failed: table.column` (with dot-free table and column
names, and the marker not recurring in them) is reported to the caller as
the plain-language message naming that specific column. -/
theorem c9_unique_violation_message (tn : String) (data : KVMap) (t c : String)
    (hd : data ≠ [])
    (hno : containsSub ("UNIQUE constraint failed: " : String).data
      (t ++ "." ++ c).data = false)
    (ht : ('.' : Char) ∉ t.data) (hc : ('.' : Char) ∉ c.data) :
    InsertRow tn data (some ("UNIQUE constraint failed: " ++ (t ++ "." ++ c))) =
      Except.error ("The value for " ++ sq ++ c ++ sq ++
        " already exists. This field must be unique.") := by
  have hdE : data.isEmpty = false := by
    cases data with
    | nil => exact absurd rfl hd
    | cons p rest => rfl
  have step1 : goContains ("UNIQUE constraint failed: " ++ (t ++ "." ++ c))
      "UNIQUE constraint failed:" = true := by
    have h1 : ("UNIQUE constraint failed: " : String).data =
        ("UNIQUE constraint failed:" : String).data ++ [' '] := by decide
    have h2 : (("UNIQUE constraint failed: " ++ (t ++ "." ++ c)) : String).data =
        ("UNIQUE constraint failed: " : String).data ++ (t ++ "." ++ c).data := rfl
    unfold goContains
    rw [h2, h1, List.append_assoc]
    exact containsSub_of_hasPref (hasPref_append _ _)
  have hsplit1 : goSplit ("UNIQUE constraint failed: " ++ (t ++ "." ++ c))
      "UNIQUE constraint failed: " = ["", t ++ "." ++ c] := by
    rcases hms : ("UNIQUE constraint failed: " : String).data with _ | ⟨c0, cs⟩
    · exact absurd hms (by decide)
    · exact goSplit_head_marker _ _ c0 cs hms hno
  have hparse : parseConstraintError ("UNIQUE constraint failed: " ++ (t ++ "." ++ c)) =
      "The value for " ++ sq ++ c ++ sq ++
        " already exists. This field must be unique." := by
    simp only [parseConstraintError, step1, if_true, hsplit1, goSplit_dot t c ht hc]
  simp [InsertRow, hdE, hparse]

/-- Claim C9, witness at the concrete error text
`UNIQUE constraint failed: users.email`. -/
theorem c9_wit :
    InsertRow "users" [("email", SQLValue.textV "john@example.com")]
        (some ("UNIQUE constraint failed: " ++ ("users" ++ "." ++ "email"))) =
      Except.error ("The value for " ++ sq ++ "email" ++ sq ++
        " already exists. This field must be unique.") :=
  c9_unique_violation_message "users" [("email", SQLValue.textV "john@example.com")]
    "users" "email" (by decide) (by decide) (by decide) (by decide)

end Sqliter
